import Mathlib

set_option maxHeartbeats 1000000

namespace TsuukanTokei

/-!
Shallow embedding of `src/app.py` (通関統計データ取得アプリ): the per-HS-code
fetch loop with its outcome counters (lines 90-159), the post-loop emptiness
check (163-165), the code-source reader (73-81), the metadata merge chain
(175-237), and the shaping block with its exception handler (241-307).

Cells of a pandas data frame are `Option String` (`none` = NaN/NA); a row is
an association list from column name to cell; a table carries its column list
and its rows.
-/

abbrev Cell := Option String

abbrev Row := List (String × Cell)

/-- Cell of row `r` in column `c`; `none` both for an NA cell and for a
column the row does not carry (pandas yields NaN for either). -/
def getCell : Row → String → Cell
  | [], _ => none
  | p :: r, c => if p.1 = c then p.2 else getCell r c

/-- Column assignment at row level: replaces (or introduces) column `c`. -/
def setCell (r : Row) (c : String) (v : Cell) : Row :=
  (c, v) :: r.filter (fun p => ¬ (p.1 = c))

structure Table where
  cols : List String
  rows : List Row
deriving DecidableEq

def emptyTable : Table := ⟨[], []⟩

/-- Column assignment at table level (`df[c] = f(row)`), appending `c` to the
column list when it is new. -/
def setColT (t : Table) (c : String) (f : Row → Cell) : Table :=
  { cols := if c ∈ t.cols then t.cols else t.cols ++ [c],
    rows := t.rows.map (fun r => setCell r c (f r)) }

/-- Cell-wise transformation of one column (`df[c] = g(df[c])`). -/
def mapColT (t : Table) (c : String) (g : Cell → Cell) : Table :=
  setColT t c (fun r => g (getCell r c))

/-- `df.drop([c], axis=1, errors='ignore')`. -/
def dropColT (t : Table) (c : String) : Table :=
  { cols := t.cols.filter (fun d => ¬ (d = c)),
    rows := t.rows.map (fun r => r.filter (fun p => ¬ (p.1 = c))) }

/-- `df.dropna(subset=[c])`. -/
def dropnaCol (t : Table) (c : String) : Table :=
  { cols := t.cols, rows := t.rows.filter (fun r => (getCell r c).isSome) }

/-- `df[order_cols_present]`: keeps the columns of `order` that exist, in
`order`'s order, projecting every row onto them. -/
def selectColsT (t : Table) (order : List String) : Table :=
  { cols := order.filter (fun c => c ∈ t.cols),
    rows := t.rows.map (fun r => (order.filter (fun c => c ∈ t.cols)).map (fun c => (c, getCell r c))) }

/-- `df[cols]` with every listed column assumed present (as in line 230 of the
source, whose `KeyError` on a missing column is handled by the caller). -/
def selectColsExact (t : Table) (cols : List String) : Table :=
  { cols := cols, rows := t.rows.map (fun r => cols.map (fun c => (c, getCell r c))) }

/-- `astype(str)` on one cell: pandas renders NaN as the string "nan". -/
def astypeStrCell (c : Cell) : Cell :=
  match c with
  | some s => some s
  | none => some "nan"

/-- `df.astype(str)` over a whole table. -/
def astypeStrTable (t : Table) : Table :=
  { cols := t.cols, rows := t.rows.map (fun r => r.map (fun p => (p.1, astypeStrCell p.2))) }

/-! ### First-occurrence deduplication (pandas `unique` / `drop_duplicates`) -/

def nubAux {α : Type} [DecidableEq α] (seen : List α) : List α → List α
  | [] => []
  | a :: l => if a ∈ seen then nubAux seen l else a :: nubAux (a :: seen) l

/-- First-occurrence deduplication, as `pandas.Series.unique` does. -/
def nub {α : Type} [DecidableEq α] (l : List α) : List α := nubAux [] l

def nubByAux (f : Row → Cell) (seen : List Cell) : List Row → List Row
  | [] => []
  | r :: l => if f r ∈ seen then nubByAux f seen l else r :: nubByAux f (f r :: seen) l

/-- `df.drop_duplicates(subset=[key])`: keeps the first row per key cell
(pandas treats NA keys as equal duplicates, as `Option` equality does). -/
def dropDupOn (t : Table) (key : String) : Table :=
  { cols := t.cols, rows := nubByAux (fun r => getCell r key) [] t.rows }

/-! ### The parsed API response envelope (`result_json`)

One `Option` per key-presence check the source performs on the nested JSON. -/

structure DataInf where
  value : Option (List Row)
deriving DecidableEq

structure ClassEntry where
  code : String
  name : String
  parent : Option String
deriving DecidableEq

structure ClassObj where
  id : String
  classes : Option (List ClassEntry)
deriving DecidableEq

structure ClassInf where
  classObj : Option (List ClassObj)
deriving DecidableEq

structure StatData where
  dataInf : Option DataInf
  classInf : Option ClassInf
deriving DecidableEq

structure ResultObj where
  status : Option Int
  errorMsg : Option String
deriving DecidableEq

structure GetStats where
  result : Option ResultObj
  statisticalData : Option StatData
deriving DecidableEq

structure RespBody where
  getStatsData : Option GetStats
deriving DecidableEq

/-- `GET_STATS_DATA.STATISTICAL_DATA.DATA_INF.VALUE` when every key on the
path is present (line 124). -/
def valueOf (g : GetStats) : Option (List Row) :=
  (g.statisticalData.bind (fun sd => sd.dataInf)).bind (fun di => di.value)

/-- What one iteration of the fetch loop receives from the outside world:
a transport-level failure (`requests.exceptions.RequestException`, including
`raise_for_status`), a JSON decode failure, or a parsed body. -/
inductive Fetched where
  | transportError : Fetched
  | jsonError : Fetched
  | body : RespBody → Fetched
deriving DecidableEq

/-- The loop's mutable state (lines 90-94): `data_list`, the retained
envelope `result`, and the three counters. -/
structure LoopState where
  dataList : List Row
  result : Option RespBody
  processedCount : Nat
  errorCount : Nat
  skippedCount : Nat
deriving DecidableEq

def initState : LoopState := ⟨[], none, 0, 0, 0⟩

/-- One iteration of the loop body (lines 103-156) on the fetched input. -/
def step (s : LoopState) (f : Fetched) : LoopState :=
  match f with
  | .transportError => { s with errorCount := s.errorCount + 1 }
  | .jsonError => { s with errorCount := s.errorCount + 1 }
  | .body b =>
    match b.getStatsData with
    | none => { s with skippedCount := s.skippedCount + 1 }
    | some g =>
      match g.result with
      | none => { s with skippedCount := s.skippedCount + 1 }
      | some r =>
        match r.status with
        | none => { s with skippedCount := s.skippedCount + 1 }
        | some st =>
          if st = 0 then
            match valueOf g with
            | some rows =>
                { s with dataList := s.dataList ++ rows,
                         result := some b,
                         processedCount := s.processedCount + 1 }
            | none => { s with skippedCount := s.skippedCount + 1 }
          else { s with errorCount := s.errorCount + 1 }

def loopFrom (s : LoopState) (fs : List Fetched) : LoopState := fs.foldl step s

/-- The whole fetch loop (lines 100-159) from the initial state. -/
def runLoop (fs : List Fetched) : LoopState := loopFrom initState fs

/-- The spec's Outcome taxonomy, one tag per loop branch. -/
inductive Outcome where
  | success : Outcome
  | emptyResult : Outcome
  | malformedResponse : Outcome
  | apiError : Outcome
  | transportError : Outcome
  | parseError : Outcome
deriving DecidableEq

/-- Which Outcome the loop body's branch structure assigns to an input. -/
def classify (f : Fetched) : Outcome :=
  match f with
  | .transportError => .transportError
  | .jsonError => .parseError
  | .body b =>
    match b.getStatsData with
    | none => .malformedResponse
    | some g =>
      match g.result with
      | none => .malformedResponse
      | some r =>
        match r.status with
        | none => .malformedResponse
        | some st =>
          if st = 0 then
            match valueOf g with
            | some _ => .success
            | none => .emptyResult
          else .apiError

/-- Does the body carry at least one value row (the spec's "value rows are
present")? -/
def hasValueRows (b : RespBody) : Bool :=
  match b.getStatsData with
  | none => false
  | some g =>
    match valueOf g with
    | some (_ :: _) => true
    | _ => false

inductive CounterKind where
  | processedK : CounterKind
  | skippedK : CounterKind
  | erroredK : CounterKind
deriving DecidableEq

/-- The claimed counter mapping: Success→processed,
EmptyResult/MalformedResponse→skipped, Transport/Parse/ApiError→errored. -/
def bucketOf : Outcome → CounterKind
  | .success => .processedK
  | .emptyResult => .skippedK
  | .malformedResponse => .skippedK
  | .apiError => .erroredK
  | .transportError => .erroredK
  | .parseError => .erroredK

def counters (s : LoopState) : Nat × Nat × Nat :=
  (s.processedCount, s.skippedCount, s.errorCount)

/-- Increment exactly the named counter of a (processed, skipped, errored)
triple. -/
def bump (c : Nat × Nat × Nat) : CounterKind → Nat × Nat × Nat
  | .processedK => (c.1 + 1, c.2.1, c.2.2)
  | .skippedK => (c.1, c.2.1 + 1, c.2.2)
  | .erroredK => (c.1, c.2.1, c.2.2 + 1)

/-! ### Loop helper lemmas -/

theorem step_counters (s : LoopState) (f : Fetched) :
    counters (step s f) = bump (counters s) (bucketOf (classify f)) := by
  cases f with
  | transportError => rfl
  | jsonError => rfl
  | body b =>
    cases hg : b.getStatsData with
    | none => simp [step, classify, hg, counters, bump, bucketOf]
    | some g =>
      cases hr : g.result with
      | none => simp [step, classify, hg, hr, counters, bump, bucketOf]
      | some r =>
        cases hs : r.status with
        | none => simp [step, classify, hg, hr, hs, counters, bump, bucketOf]
        | some st =>
          by_cases hz : st = 0
          · cases hv : valueOf g with
            | none => simp [step, classify, hg, hr, hs, hz, hv, counters, bump, bucketOf]
            | some rows => simp [step, classify, hg, hr, hs, hz, hv, counters, bump, bucketOf]
          · simp [step, classify, hg, hr, hs, hz, counters, bump, bucketOf]

theorem bump_sum (c : Nat × Nat × Nat) (k : CounterKind) :
    (bump c k).1 + (bump c k).2.1 + (bump c k).2.2 = c.1 + c.2.1 + c.2.2 + 1 := by
  cases k <;> simp [bump] <;> omega

theorem step_sum (s : LoopState) (f : Fetched) :
    (step s f).processedCount + (step s f).skippedCount + (step s f).errorCount
      = s.processedCount + s.skippedCount + s.errorCount + 1 := by
  have h := step_counters s f
  have h1 : (counters (step s f)).1 = (step s f).processedCount := rfl
  have h2 : (counters (step s f)).2.1 = (step s f).skippedCount := rfl
  have h3 : (counters (step s f)).2.2 = (step s f).errorCount := rfl
  rw [← h1, ← h2, ← h3, h, bump_sum]
  rfl

theorem loopFrom_sum (fs : List Fetched) :
    ∀ s : LoopState,
      (loopFrom s fs).processedCount + (loopFrom s fs).skippedCount + (loopFrom s fs).errorCount
        = s.processedCount + s.skippedCount + s.errorCount + fs.length := by
  induction fs with
  | nil => intro s; simp [loopFrom]
  | cons f fs ih =>
    intro s
    have := ih (step s f)
    simp only [loopFrom, List.foldl_cons] at this ⊢
    rw [this, step_sum]
    simp [List.length_cons]
    omega

/-- A non-success iteration leaves `data_list` and the retained envelope
unchanged. -/
theorem step_frame_nonsuccess (s : LoopState) (f : Fetched) (h : classify f ≠ .success) :
    (step s f).dataList = s.dataList ∧ (step s f).result = s.result := by
  cases f with
  | transportError => exact ⟨rfl, rfl⟩
  | jsonError => exact ⟨rfl, rfl⟩
  | body b =>
    cases hg : b.getStatsData with
    | none => simp [step, hg]
    | some g =>
      cases hr : g.result with
      | none => simp [step, hg, hr]
      | some r =>
        cases hs : r.status with
        | none => simp [step, hg, hr, hs]
        | some st =>
          by_cases hz : st = 0
          · cases hv : valueOf g with
            | none => simp [step, hg, hr, hs, hz, hv]
            | some rows =>
              exfalso
              apply h
              simp [classify, hg, hr, hs, hz, hv]
          · simp [step, hg, hr, hs, hz]

theorem loopFrom_dataList_nonsuccess (fs : List Fetched) :
    ∀ s : LoopState, (∀ f ∈ fs, classify f ≠ .success) →
      (loopFrom s fs).dataList = s.dataList := by
  induction fs with
  | nil => intro s _; rfl
  | cons f fs ih =>
    intro s h
    have hf : classify f ≠ .success := h f (List.mem_cons_self f fs)
    have hrest : ∀ g ∈ fs, classify g ≠ .success := fun g hg => h g (List.mem_cons_of_mem f hg)
    have hc : loopFrom s (f :: fs) = loopFrom (step s f) fs := rfl
    rw [hc, ih (step s f) hrest, (step_frame_nonsuccess s f hf).1]

/-! ### First-occurrence dedup lemmas -/

theorem mem_nubAux {α : Type} [DecidableEq α] :
    ∀ (l seen : List α) (x : α), x ∈ nubAux seen l ↔ (x ∈ l ∧ x ∉ seen) := by
  intro l
  induction l with
  | nil => intro seen x; simp [nubAux]
  | cons a l ih =>
    intro seen x
    by_cases ha : a ∈ seen
    · simp only [nubAux, if_pos ha]
      rw [ih seen x]
      simp only [List.mem_cons]
      constructor
      · rintro ⟨hx, hs⟩; exact ⟨Or.inr hx, hs⟩
      · rintro ⟨hor, hs⟩
        rcases hor with rfl | hx
        · exact absurd ha hs
        · exact ⟨hx, hs⟩
    · simp only [nubAux, if_neg ha]
      rw [List.mem_cons, ih (a :: seen) x]
      constructor
      · rintro (rfl | ⟨hl, hs⟩)
        · exact ⟨List.mem_cons_self _ _, ha⟩
        · simp only [List.mem_cons] at hs
          push_neg at hs
          exact ⟨List.mem_cons_of_mem _ hl, hs.2⟩
      · rintro ⟨hor, hs⟩
        rcases List.mem_cons.mp hor with rfl | hl
        · exact Or.inl rfl
        · by_cases hxa : x = a
          · exact Or.inl hxa
          · refine Or.inr ⟨hl, ?_⟩
            simp only [List.mem_cons]
            push_neg
            exact ⟨hxa, hs⟩

theorem nodup_nubAux {α : Type} [DecidableEq α] :
    ∀ (l seen : List α), (nubAux seen l).Nodup := by
  intro l
  induction l with
  | nil => intro seen; simp [nubAux]
  | cons a l ih =>
    intro seen
    by_cases ha : a ∈ seen
    · simp only [nubAux, if_pos ha]; exact ih seen
    · simp only [nubAux, if_neg ha]
      rw [List.nodup_cons]
      refine ⟨?_, ih (a :: seen)⟩
      intro hmem
      rw [mem_nubAux] at hmem
      exact hmem.2 (List.mem_cons_self a seen)

theorem mem_nub {α : Type} [DecidableEq α] (l : List α) (x : α) : x ∈ nub l ↔ x ∈ l := by
  rw [nub, mem_nubAux]
  simp

theorem nodup_nub {α : Type} [DecidableEq α] (l : List α) : (nub l).Nodup :=
  nodup_nubAux l []

/-! ### Code Source Reader (lines 73-81) -/

/-- Python's `str.strip()`: whitespace removed from both ends. -/
def stripChars (l : List Char) : List Char :=
  ((l.dropWhile Char.isWhitespace).reverse.dropWhile Char.isWhitespace).reverse

/-- Python's `str.strip()` on a string. -/
def pyStrip (s : String) : String := String.mk (stripChars s.data)

/-- The filter of line 78: keep a cell that is not NaN and whose content is
truthy after `strip()` (note: the kept string itself is NOT trimmed). -/
def validCode (o : Option String) : Option String :=
  match o with
  | some s => if pyStrip s = "" then none else some s
  | none => none

/-- Lines 77-78: `unique().tolist()` then the notna/strip filter. -/
def hsCodesOf (col : List (Option String)) : List String :=
  (nub col).filterMap validCode

inductive ReadError where
  | inputFormatError : ReadError
deriving DecidableEq

/-- Lines 73-81: missing 'HSコード' column or no valid code halts the run. -/
def codeSourceReader (hasHsColumn : Bool) (col : List (Option String)) :
    Except ReadError (List String) :=
  if hasHsColumn = false then .error .inputFormatError
  else if hsCodesOf col = [] then .error .inputFormatError
  else .ok (hsCodesOf col)

theorem validCode_inj (a b : Option String) (s : String)
    (ha : validCode a = some s) (hb : validCode b = some s) : a = b := by
  cases a with
  | none => simp [validCode] at ha
  | some x =>
    cases b with
    | none => simp [validCode] at hb
    | some y =>
      simp only [validCode] at ha hb
      split at ha
      · exact absurd ha (by simp)
      · split at hb
        · exact absurd hb (by simp)
        · cases ha; cases hb; rfl

theorem mem_hsCodesOf (col : List (Option String)) (s : String) :
    s ∈ hsCodesOf col ↔ (some s ∈ col ∧ pyStrip s ≠ "") := by
  rw [hsCodesOf, List.mem_filterMap]
  constructor
  · rintro ⟨o, ho, hv⟩
    cases o with
    | none => simp [validCode] at hv
    | some x =>
      simp only [validCode] at hv
      split at hv
      · exact absurd hv (by simp)
      · cases hv
        exact ⟨(mem_nub col (some s)).mp ho, by assumption⟩
  · rintro ⟨hmem, htrim⟩
    exact ⟨some s, (mem_nub col (some s)).mpr hmem, by simp [validCode, htrim]⟩

theorem nodup_hsCodesOf (col : List (Option String)) : (hsCodesOf col).Nodup := by
  rw [hsCodesOf]
  apply List.Nodup.filterMap
  · intro a b s hsa hsb
    exact validCode_inj a b s hsa hsb
  · exact nodup_nub col

/-! ### Claim theorems on the fetch loop and the reader -/

/-- C1 (amended): after the fetch loop, processed + skipped + errored equals
the number of identifiers, and every iteration increments exactly one counter
per the mapping: the success branch (VALUE field present under success
status, even with zero rows) increments processed; a success status with the
VALUE field absent, or a malformed response, increments skipped; transport
error, JSON parse error, or API error status increments errored. -/
theorem counter_partition (fs : List Fetched) :
    (runLoop fs).processedCount + (runLoop fs).skippedCount + (runLoop fs).errorCount
        = fs.length ∧
    ∀ (s : LoopState) (f : Fetched),
      counters (step s f) = bump (counters s) (bucketOf (classify f)) := by
  constructor
  · have h := loopFrom_sum fs initState
    simpa [runLoop, initState] using h
  · exact step_counters

/-- A sample success envelope: status 0, one value row. -/
def rowA : Row := [("@cat01", some "0101")]

def gSuccess : GetStats := ⟨some ⟨some 0, none⟩, some ⟨some ⟨some [rowA]⟩, none⟩⟩

def bSuccess : RespBody := ⟨some gSuccess⟩

/-- A status-0 envelope whose VALUE field is present but holds zero rows. -/
def bEmptyValue : RespBody := ⟨some ⟨some ⟨some 0, none⟩, some ⟨some ⟨some []⟩, none⟩⟩⟩

/-- C2 (amended): under a success status the loop takes the success branch
(rows appended, processed incremented, envelope retained) exactly when the
VALUE field is present — even when it holds zero rows — and increments
skipped (no rows appended) exactly when the VALUE field is absent. -/
theorem success_iff_value_field (s : LoopState) (b : RespBody) (g : GetStats) (r : ResultObj)
    (hb : b.getStatsData = some g) (hr : g.result = some r) (hst : r.status = some 0) :
    (∀ rows : List Row, valueOf g = some rows →
      step s (.body b) = { s with dataList := s.dataList ++ rows, result := some b,
                                  processedCount := s.processedCount + 1 }
        ∧ classify (.body b) = .success) ∧
    (valueOf g = none →
      step s (.body b) = { s with skippedCount := s.skippedCount + 1 }
        ∧ classify (.body b) = .emptyResult) := by
  constructor
  · intro rows hv
    constructor
    · simp [step, hb, hr, hst, hv]
    · simp [classify, hb, hr, hst, hv]
  · intro hv
    constructor
    · simp [step, hb, hr, hst, hv]
    · simp [classify, hb, hr, hst, hv]

theorem success_iff_value_field_witness :
    step initState (Fetched.body bSuccess) =
      { initState with dataList := initState.dataList ++ [rowA], result := some bSuccess,
                       processedCount := initState.processedCount + 1 }
      ∧ classify (Fetched.body bSuccess) = Outcome.success :=
  (success_iff_value_field initState bSuccess gSuccess ⟨some 0, none⟩ rfl rfl rfl).1 [rowA] rfl

/-- C2 counterexample: a success-status response with a present but empty
VALUE list carries no value rows, yet the code classifies it as Success
(processed is incremented, skipped is not, no row is appended) — not as
EmptyResult as the claim requires. -/
theorem success_iff_value_field_counterexample :
    classify (Fetched.body bEmptyValue) = Outcome.success ∧
    hasValueRows bEmptyValue = false ∧
    (step initState (Fetched.body bEmptyValue)).processedCount = 1 ∧
    (step initState (Fetched.body bEmptyValue)).skippedCount = 0 ∧
    (step initState (Fetched.body bEmptyValue)).dataList = [] := by
  decide

/-- C1 counterexample: an identifier whose response has success status and a
present but empty VALUE list carries no value rows — per the claim's mapping
such an empty result should increment skipped — yet the loop increments
processed for it. -/
theorem counter_partition_counterexample :
    hasValueRows bEmptyValue = false ∧
    (runLoop [Fetched.body bEmptyValue]).processedCount = 1 ∧
    (runLoop [Fetched.body bEmptyValue]).skippedCount = 0 ∧
    (runLoop [Fetched.body bEmptyValue]).errorCount = 0 := by
  decide

/-- C10 (amended): an iteration that does not take the VALUE-present success
branch leaves the cumulative record list and the retained envelope unchanged
and increments exactly one counter (the one the branch's outcome maps to);
but an iteration with success status and a present-but-empty VALUE list —
a success without value rows — leaves the record list unchanged while
REPLACING the retained envelope and incrementing processed. -/
theorem nonsuccess_frame (s : LoopState) :
    (∀ f : Fetched, classify f ≠ Outcome.success →
      (step s f).dataList = s.dataList ∧ (step s f).result = s.result ∧
      counters (step s f) = bump (counters s) (bucketOf (classify f))) ∧
    (∀ (b : RespBody) (g : GetStats) (r : ResultObj),
      b.getStatsData = some g → g.result = some r → r.status = some 0 →
      valueOf g = some [] →
      (step s (Fetched.body b)).dataList = s.dataList ∧
      (step s (Fetched.body b)).result = some b ∧
      counters (step s (Fetched.body b)) = bump (counters s) CounterKind.processedK) := by
  constructor
  · intro f h
    exact ⟨(step_frame_nonsuccess s f h).1, (step_frame_nonsuccess s f h).2, step_counters s f⟩
  · intro b g r hb hr hst hv
    refine ⟨?_, ?_, ?_⟩
    · simp [step, hb, hr, hst, hv]
    · simp [step, hb, hr, hst, hv]
    · simp [step, hb, hr, hst, hv, counters, bump]

/-- A loop state mid-run with one accumulated row and a retained envelope. -/
def sRetained : LoopState := ⟨[rowA], some bSuccess, 1, 0, 0⟩

def gEmptyValue : GetStats := ⟨some ⟨some 0, none⟩, some ⟨some ⟨some []⟩, none⟩⟩

theorem nonsuccess_frame_witness :
    ((step initState Fetched.transportError).dataList = initState.dataList ∧
     (step initState Fetched.transportError).result = initState.result ∧
     counters (step initState Fetched.transportError)
       = bump (counters initState) (bucketOf (classify Fetched.transportError))) ∧
    (step sRetained (Fetched.body bEmptyValue)).result = some bEmptyValue :=
  ⟨(nonsuccess_frame initState).1 Fetched.transportError (by decide),
   ((nonsuccess_frame sRetained).2 bEmptyValue gEmptyValue ⟨some 0, none⟩
      rfl rfl rfl rfl).2.1⟩

/-- C10 counterexample: a status-0 envelope with a present but empty VALUE
list is a success without value rows, which the claim lists among the
iterations leaving state untouched — yet at a state with a previously
retained envelope the iteration keeps the record list but REPLACES the
retained envelope (line 129), so more than a counter changes. -/
theorem nonsuccess_frame_counterexample :
    hasValueRows bEmptyValue = false ∧
    (step sRetained (Fetched.body bEmptyValue)).dataList = sRetained.dataList ∧
    sRetained.result = some bSuccess ∧
    (step sRetained (Fetched.body bEmptyValue)).result = some bEmptyValue ∧
    (step sRetained (Fetched.body bEmptyValue)).result ≠ sRetained.result := by
  decide

/-- C4 (amended): the reader's output lists each distinct identifier value
(exact string equality, untrimmed) that is non-null and non-empty after
stripping, exactly once; it halts with an input-format error exactly when no
such identifier remains. The kept strings are the original untrimmed values,
so two inputs equal only after trimming both survive. -/
theorem reader_spec (col : List (Option String)) :
    (∀ codes : List String, codeSourceReader true col = .ok codes →
      codes.Nodup ∧ (∀ s : String, s ∈ codes ↔ (some s ∈ col ∧ pyStrip s ≠ ""))) ∧
    (codeSourceReader true col = .error .inputFormatError ↔ hsCodesOf col = []) := by
  constructor
  · intro codes h
    simp only [codeSourceReader, Bool.true_eq_false, if_false] at h
    split at h
    · exact absurd h (by simp)
    · cases h
      exact ⟨nodup_hsCodesOf col, fun s => mem_hsCodesOf col s⟩
  · simp only [codeSourceReader, Bool.true_eq_false, if_false]
    split
    · simpa
    · constructor
      · intro h; exact absurd h (by simp)
      · intro h; exact absurd h (by assumption)

theorem reader_spec_witness :
    (["A"] : List String).Nodup ∧
    ("A" ∈ (["A"] : List String) ↔ (some "A" ∈ [some "A", none, some "  "] ∧ pyStrip "A" ≠ "")) :=
  ⟨((reader_spec [some "A", none, some "  "]).1 ["A"] rfl).1,
   ((reader_spec [some "A", none, some "  "]).1 ["A"] rfl).2 "A"⟩

/-- C4 counterexample: with input cells "A" and " A" — equal after trimming —
the reader keeps both untrimmed values, so the distinct trimmed identifier
"A" is represented twice in the output, not exactly once. -/
theorem reader_spec_counterexample :
    codeSourceReader true [some "A", some " A"] = .ok ["A", " A"] ∧
    (["A", " A"] : List String).countP (fun c => pyStrip c == "A") = 2 :=
  ⟨rfl, by decide⟩

/-! ### String helpers for the merge and shaping stages -/

/-- Part of a string before its first underscore (`str.split('_', n=1)[0]`). -/
def beforeUnderscore : List Char → List Char
  | [] => []
  | c :: cs => if c = '_' then [] else c :: beforeUnderscore cs

/-- Part of a string after its first underscore, `none` when it has no
underscore (`str.split('_', n=1).str[1]`, which is NaN without a match). -/
def afterUnderscore : List Char → Option (List Char)
  | [] => none
  | c :: cs => if c = '_' then some cs else afterUnderscore cs

/-- Line 214: country display name = everything after the first underscore of
the source name; NaN when the name has no underscore. -/
def countryClean (s : String) : Option String :=
  (afterUnderscore s.data).map (fun cs => String.mk cs)

def digitsToNat (l : List Char) : Nat :=
  l.foldl (fun n c => n * 10 + (c.toNat - '0'.toNat)) 0

def parseNatChars (l : List Char) : Option Nat :=
  if l ≠ [] ∧ l.all Char.isDigit then some (digitsToNat l) else none

def parseIntChars (l : List Char) : Option Int :=
  match l with
  | '-' :: rest => (parseNatChars rest).map (fun n => -(n : Int))
  | l => (parseNatChars l).map (fun n => (n : Int))

def takeDigits : List Char → List Char
  | [] => []
  | c :: cs => if c.isDigit then c :: takeDigits cs else []

/-- First maximal digit run of a string (the regex `(\d+)` of line 260). -/
def firstDigitRun : List Char → Option (List Char)
  | [] => none
  | c :: cs => if c.isDigit then some (c :: takeDigits cs) else firstDigitRun cs

/-- Lines 224-225: take the first four characters of the (stringified) year
code and coerce to a nullable integer (`errors='coerce'`). -/
def yearOfCell (c : Cell) : Cell :=
  match c with
  | some s => (parseIntChars (s.data.take 4)).map (fun n => toString n)
  | none => none

/-- Line 256: month token = part before the first underscore of the
stringified category label (pandas `astype(str)` renders NA as "nan"). -/
def monthTokCell (c : Cell) : Cell :=
  match c with
  | some s => some (String.mk (beforeUnderscore s.data))
  | none => some "nan"

/-- Line 257: category remainder = part after the first underscore, NaN when
there is none. -/
def kubunCell (c : Cell) : Cell :=
  match c with
  | some s => (afterUnderscore s.data).map (fun cs => String.mk cs)
  | none => none

/-- Line 260: `.str.extract(r'(\d+)').astype('Int64')` — the first digit run
as an integer, NaN when the token has no digits. -/
def monthNumCell (c : Cell) : Cell :=
  match c with
  | some s => (firstDigitRun s.data).map (fun ds => toString (digitsToNat ds))
  | none => none

/-- Lines 264-268: `to_datetime(year + '-' + month + '-01', errors='coerce')`
is a real date exactly when the month is 1..12 (the pandas Timestamp range
limit on the year is not modelled; no claim depends on it). -/
def yearMonthCell (y m : Cell) : Cell :=
  match y, m with
  | some ys, some ms =>
    match parseIntChars ys.data, parseNatChars ms.data with
    | some _, some mn =>
        if 1 ≤ mn ∧ mn ≤ 12 then some (ys ++ "-" ++ ms ++ "-01") else none
    | _, _ => none
  | _, _ => none

/-- Line 280: `to_numeric(errors='coerce')` — integer numerals kept, anything
else becomes NA (fractional numerals are not modelled; only row preservation
matters to the claims). -/
def numCoerceCell (c : Cell) : Cell :=
  match c with
  | some s => if (parseIntChars s.data).isSome then some s else none
  | none => none

/-! ### Building the flat table (lines 167-172) -/

/-- The column rename of lines 168-172. -/
def renameMap (k : String) : String :=
  if k = "@cat01" then "HSコード"
  else if k = "@cat02" then "区分コード"
  else if k = "@cat03" then "税関コード"
  else if k = "@area" then "国コード"
  else if k = "@time" then "年コード"
  else if k = "$" then "値（金額、数量）"
  else if k = "@unit" then "単位"
  else k

/-- Columns of `pd.DataFrame(list_of_dicts)`: union of the rows' keys in
first-seen order. -/
def colsOfRows (rows : List Row) : List String :=
  nub (rows.flatMap (fun r => r.map (fun p => p.1)))

/-- Lines 167-172: `pd.DataFrame(data_list)` followed by the column rename. -/
def renameTable (dataList : List Row) : Table :=
  { cols := (colsOfRows dataList).map renameMap,
    rows := dataList.map (fun r => r.map (fun p => (renameMap p.1, p.2))) }

/-! ### Left joins and the Metadata Resolver (lines 175-237) -/

/-- Key comparison of `pd.merge`: NA keys never match. -/
def matchKey (a b : Cell) : Bool :=
  match a, b with
  | some x, some y => x == y
  | _, _ => false

def joinRow (r q : Row) (key : String) (rightCols : List String) : Row :=
  r ++ (rightCols.filter (fun c => ¬ (c = key))).map (fun c => (c, getCell q c))

def noMatchRow (r : Row) (key : String) (rightCols : List String) : Row :=
  r ++ (rightCols.filter (fun c => ¬ (c = key))).map (fun c => (c, none))

/-- `pd.merge(t, u, on=key, how='left')`: every left row paired with each
matching right row, or kept once with NA enrichment cells when unmatched. -/
def leftJoin (t u : Table) (key : String) : Table :=
  { cols := t.cols ++ u.cols.filter (fun c => ¬ (c = key)),
    rows := t.rows.flatMap (fun r =>
      let ms := u.rows.filter (fun q => matchKey (getCell r key) (getCell q key))
      if ms.isEmpty then [noMatchRow r key u.cols]
      else ms.map (fun q => joinRow r q key u.cols)) }

/-- Lines 221-231: the three classification left joins, the year column, the
HS-code stringification and the item-label left join (the label map
deduplicated on the HS code first). -/
def mergeChain (df c02 zk ct hsT : Table) : Table :=
  let m1 := leftJoin df c02 "区分コード"
  let m2 := leftJoin m1 zk "税関コード"
  let m3 := leftJoin m2 ct "国コード"
  let m3y := setColT m3 "年" (fun r => yearOfCell (getCell r "年コード"))
  let m3h := mapColT m3y "HSコード" astypeStrCell
  let hsm := dropDupOn (astypeStrTable (selectColsExact hsT ["HSコード", "品目"])) "HSコード"
  leftJoin m3h hsm "HSコード"

def emptyCat02Table : Table := ⟨["区分コード", "区分名", "親コード"], []⟩

def emptyZeikanTable : Table := ⟨["税関コード", "税関"], []⟩

def emptyCountryTable : Table := ⟨["国コード", "国名"], []⟩

/-- Lines 189-196: the cat02 lookup (code, name, parent code), empty when the
class object or its CLASS list is missing. -/
def cat02TableOf (objs : List ClassObj) : Table :=
  match (objs.find? (fun o => o.id == "cat02")).bind (fun o => o.classes) with
  | some es =>
      ⟨["区分コード", "区分名", "親コード"],
        es.map (fun e => [("区分コード", some e.code), ("区分名", some e.name), ("親コード", e.parent)])⟩
  | none => emptyCat02Table

/-- Lines 198-205: the customs-office lookup. -/
def zeikanTableOf (objs : List ClassObj) : Table :=
  match (objs.find? (fun o => o.id == "cat03")).bind (fun o => o.classes) with
  | some es =>
      ⟨["税関コード", "税関"],
        es.map (fun e => [("税関コード", some e.code), ("税関", some e.name)])⟩
  | none => emptyZeikanTable

/-- Lines 207-216: the country lookup, names cleaned of their code prefix. -/
def countryTableOf (objs : List ClassObj) : Table :=
  match (objs.find? (fun o => o.id == "area")).bind (fun o => o.classes) with
  | some es =>
      ⟨["国コード", "国名"],
        es.map (fun e => [("国コード", some e.code), ("国名", countryClean e.name)])⟩
  | none => emptyCountryTable

/-- Lines 177-183: the retained envelope's CLASS_OBJ list; `none` both when
the guard of lines 177-180 fires and when the CLASS_OBJ access of line 183
raises (the except of line 234 then also keeps the pre-merge table). -/
def classObjsOf (retained : Option RespBody) : Option (List ClassObj) :=
  (((retained.bind (fun b => b.getStatsData)).bind (fun g => g.statisticalData)).bind
    (fun sd => sd.classInf)).bind (fun ci => ci.classObj)

/-- Lines 182-237: the merge under its try/except — a missing label column in
the uploaded table raises at line 230 and the handler keeps the pre-merge
table. -/
def mergeWithMeta (df : Table) (objs : List ClassObj) (hsT : Table) : Table :=
  if "HSコード" ∈ hsT.cols ∧ "品目" ∈ hsT.cols then
    mergeChain df (cat02TableOf objs) (zeikanTableOf objs) (countryTableOf objs) hsT
  else df

/-! ### The Shaper (lines 241-300), one statement per `df_complete`
assignment; the guard of line 250 (and the nested one of line 262) is folded
into each statement of its block, which is equivalent because no statement of
a block removes the guarding columns before the block ends. -/

def finalColsOrder : List String :=
  ["HSコード", "品目", "年", "月", "年月", "区分",
   "国コード", "国名", "税関コード", "税関", "値（金額、数量）", "単位"]

def excludeValues : List String := ["単位2", "合計_金額", "合計_数量1", "合計_数量2"]

/-- Line 253: `~isin(exclude_values)` keeps NA cells (isin is false on NA). -/
def notExcluded (c : Cell) : Bool :=
  match c with
  | some v => !(excludeValues.contains v)
  | none => true

def stmtDropnaKubun (t : Table) : Table :=
  if "区分名" ∈ t.cols then dropnaCol t "区分名" else t

def stmtFilterExclude (t : Table) : Table :=
  if "区分名" ∈ t.cols then
    ⟨t.cols, t.rows.filter (fun r => notExcluded (getCell r "区分名"))⟩
  else t

def stmtSetMonth (t : Table) : Table :=
  if "区分名" ∈ t.cols then setColT t "月" (fun r => monthTokCell (getCell r "区分名")) else t

def stmtSetKubun (t : Table) : Table :=
  if "区分名" ∈ t.cols then setColT t "区分" (fun r => kubunCell (getCell r "区分名")) else t

def stmtSetMonthNum (t : Table) : Table :=
  if "区分名" ∈ t.cols then setColT t "月数値" (fun r => monthNumCell (getCell r "月")) else t

def stmtDropnaYearMonthNum (t : Table) : Table :=
  if "区分名" ∈ t.cols ∧ "年" ∈ t.cols ∧ "月数値" ∈ t.cols then
    ⟨t.cols, t.rows.filter (fun r => (getCell r "年").isSome && (getCell r "月数値").isSome)⟩
  else t

def stmtSetYearMonth (t : Table) : Table :=
  if "区分名" ∈ t.cols ∧ "年" ∈ t.cols ∧ "月数値" ∈ t.cols then
    setColT t "年月" (fun r => yearMonthCell (getCell r "年") (getCell r "月数値"))
  else t

def stmtDropnaYearMonth (t : Table) : Table :=
  if "区分名" ∈ t.cols ∧ "年" ∈ t.cols ∧ "月数値" ∈ t.cols then dropnaCol t "年月" else t

def stmtDropMonthNum (t : Table) : Table :=
  if "区分名" ∈ t.cols ∧ "年" ∈ t.cols ∧ "月数値" ∈ t.cols then dropColT t "月数値" else t

def stmtDropKubunName (t : Table) : Table :=
  if "区分名" ∈ t.cols then dropColT t "区分名" else t

def stmtDropYearCode (t : Table) : Table := dropColT t "年コード"

def stmtCoerceValue (t : Table) : Table :=
  if "値（金額、数量）" ∈ t.cols then mapColT t "値（金額、数量）" numCoerceCell else t

def stmtStrHS (t : Table) : Table :=
  if "HSコード" ∈ t.cols then mapColT t "HSコード" astypeStrCell else t

def stmtStrCountry (t : Table) : Table :=
  if "国コード" ∈ t.cols then mapColT t "国コード" astypeStrCell else t

def stmtStrZeikan (t : Table) : Table :=
  if "税関コード" ∈ t.cols then mapColT t "税関コード" astypeStrCell else t

def stmtSelectFinal (t : Table) : Table := selectColsT t finalColsOrder

/-- The shaping statements in source order (line 290's re-`to_datetime` of an
already-built 年月 column is the identity and carries no statement here). -/
def shapeStmts : List (Table → Table) :=
  [stmtDropnaKubun, stmtFilterExclude, stmtSetMonth, stmtSetKubun, stmtSetMonthNum,
   stmtDropnaYearMonthNum, stmtSetYearMonth, stmtDropnaYearMonth, stmtDropMonthNum,
   stmtDropKubunName, stmtDropYearCode, stmtCoerceValue, stmtStrHS, stmtStrCountry,
   stmtStrZeikan, stmtSelectFinal]

/-- State of `df_complete` after the first `k` shaping statements. -/
def shapeUpTo (t : Table) (k : Nat) : Table :=
  (shapeStmts.take k).foldl (fun a f => f a) t

/-- The full shaping block (lines 241-300). -/
def shape (t : Table) : Table := shapeStmts.foldl (fun a f => f a) t

/-- Lines 241-307, try/except included: `some k` models an exception raised in
statement k+1 after k statements completed; the handler (lines 302-307) keeps
`df_complete` as of that point. -/
def runShaping (t : Table) (failedAt : Option Nat) : Table :=
  match failedAt with
  | none => shape t
  | some k => shapeUpTo t k

/-! ### Post-loop pipeline (lines 163-300) -/

/-- Lines 163-300: halt (`st.stop`) on an empty record list, else build the
renamed table, merge metadata when the retained envelope carries it, and
shape. -/
def pipelinePost (dataList : List Row) (retained : Option RespBody) (hsT : Table) :
    Option Table :=
  if dataList = [] then none
  else
    some (shape (match classObjsOf retained with
      | none => renameTable dataList
      | some objs => mergeWithMeta (renameTable dataList) objs hsT))

/-- The whole run after reading the codes: fetch loop then post-loop
pipeline. -/
def fullRun (fs : List Fetched) (hsT : Table) : Option Table :=
  pipelinePost (runLoop fs).dataList (runLoop fs).result hsT

/-! ### Row-count lemmas for the table operations -/

theorem length_setColT (t : Table) (c : String) (f : Row → Cell) :
    (setColT t c f).rows.length = t.rows.length := by
  simp [setColT]

theorem length_mapColT (t : Table) (c : String) (g : Cell → Cell) :
    (mapColT t c g).rows.length = t.rows.length := by
  simp [mapColT, setColT]

theorem length_dropColT (t : Table) (c : String) :
    (dropColT t c).rows.length = t.rows.length := by
  simp [dropColT]

theorem length_selectColsT (t : Table) (order : List String) :
    (selectColsT t order).rows.length = t.rows.length := by
  simp [selectColsT]

theorem length_dropnaCol_le (t : Table) (c : String) :
    (dropnaCol t c).rows.length ≤ t.rows.length :=
  List.length_filter_le _ _

/-- The shaping pipeline as a nested composition (definitional). -/
theorem shape_unfold (t : Table) :
    shape t = stmtSelectFinal (stmtStrZeikan (stmtStrCountry (stmtStrHS (stmtCoerceValue
      (stmtDropYearCode (stmtDropKubunName (stmtDropMonthNum (stmtDropnaYearMonth
      (stmtSetYearMonth (stmtDropnaYearMonthNum (stmtSetMonthNum (stmtSetKubun
      (stmtSetMonth (stmtFilterExclude (stmtDropnaKubun t))))))))))))))) := rfl

/-! Identity of the 区分名-guarded statements when the column is absent. -/

theorem stmtDropnaKubun_id (t : Table) (h : "区分名" ∉ t.cols) : stmtDropnaKubun t = t :=
  if_neg h

theorem stmtFilterExclude_id (t : Table) (h : "区分名" ∉ t.cols) : stmtFilterExclude t = t :=
  if_neg h

theorem stmtSetMonth_id (t : Table) (h : "区分名" ∉ t.cols) : stmtSetMonth t = t :=
  if_neg h

theorem stmtSetKubun_id (t : Table) (h : "区分名" ∉ t.cols) : stmtSetKubun t = t :=
  if_neg h

theorem stmtSetMonthNum_id (t : Table) (h : "区分名" ∉ t.cols) : stmtSetMonthNum t = t :=
  if_neg h

theorem stmtDropnaYearMonthNum_id (t : Table) (h : "区分名" ∉ t.cols) :
    stmtDropnaYearMonthNum t = t :=
  if_neg (fun hc => h hc.1)

theorem stmtSetYearMonth_id (t : Table) (h : "区分名" ∉ t.cols) : stmtSetYearMonth t = t :=
  if_neg (fun hc => h hc.1)

theorem stmtDropnaYearMonth_id (t : Table) (h : "区分名" ∉ t.cols) : stmtDropnaYearMonth t = t :=
  if_neg (fun hc => h hc.1)

theorem stmtDropMonthNum_id (t : Table) (h : "区分名" ∉ t.cols) : stmtDropMonthNum t = t :=
  if_neg (fun hc => h hc.1)

theorem stmtDropKubunName_id (t : Table) (h : "区分名" ∉ t.cols) : stmtDropKubunName t = t :=
  if_neg h

/-! Unconditional row-count preservation of the tail statements. -/

theorem length_stmtDropYearCode (t : Table) :
    (stmtDropYearCode t).rows.length = t.rows.length :=
  length_dropColT t _

theorem length_stmtCoerceValue (t : Table) :
    (stmtCoerceValue t).rows.length = t.rows.length := by
  by_cases h : "値（金額、数量）" ∈ t.cols
  · rw [stmtCoerceValue, if_pos h, length_mapColT]
  · rw [stmtCoerceValue, if_neg h]

theorem length_stmtStrHS (t : Table) : (stmtStrHS t).rows.length = t.rows.length := by
  by_cases h : "HSコード" ∈ t.cols
  · rw [stmtStrHS, if_pos h, length_mapColT]
  · rw [stmtStrHS, if_neg h]

theorem length_stmtStrCountry (t : Table) : (stmtStrCountry t).rows.length = t.rows.length := by
  by_cases h : "国コード" ∈ t.cols
  · rw [stmtStrCountry, if_pos h, length_mapColT]
  · rw [stmtStrCountry, if_neg h]

theorem length_stmtStrZeikan (t : Table) : (stmtStrZeikan t).rows.length = t.rows.length := by
  by_cases h : "税関コード" ∈ t.cols
  · rw [stmtStrZeikan, if_pos h, length_mapColT]
  · rw [stmtStrZeikan, if_neg h]

theorem length_stmtSelectFinal (t : Table) :
    (stmtSelectFinal t).rows.length = t.rows.length :=
  length_selectColsT t _

/-- Without a 区分名 column the shaping block drops no rows: everything
beyond its guarded block is a column-level map. -/
theorem shape_rows_of_no_kubun (t : Table) (h : "区分名" ∉ t.cols) :
    (shape t).rows.length = t.rows.length := by
  rw [shape_unfold, stmtDropnaKubun_id t h, stmtFilterExclude_id t h, stmtSetMonth_id t h,
    stmtSetKubun_id t h, stmtSetMonthNum_id t h, stmtDropnaYearMonthNum_id t h,
    stmtSetYearMonth_id t h, stmtDropnaYearMonth_id t h, stmtDropMonthNum_id t h,
    stmtDropKubunName_id t h, length_stmtSelectFinal, length_stmtStrZeikan,
    length_stmtStrCountry, length_stmtStrHS, length_stmtCoerceValue, length_stmtDropYearCode]

/-- The final column selection admits only columns of `finalColsOrder`. -/
theorem mem_cols_stmtSelectFinal (t : Table) (c : String)
    (h : c ∈ (stmtSelectFinal t).cols) : c ∈ finalColsOrder := by
  rw [stmtSelectFinal, selectColsT] at h
  exact (List.mem_filter.mp h).1

/-- The shaped table never carries a 区分名 column (it is not in the final
column order). -/
theorem kubun_not_mem_shape (t : Table) : "区分名" ∉ (shape t).cols := by
  intro h
  rw [shape_unfold] at h
  have h2 := mem_cols_stmtSelectFinal _ _ h
  revert h2
  decide

/-- C8: the Shaper is a fixed point on its own output — re-running the
shaping block on a shaped table removes no rows (the shaped table lacks the
区分名 column, so every row-dropping statement is skipped). -/
theorem shaper_idempotent (t : Table) :
    (shape (shape t)).rows.length = (shape t).rows.length :=
  shape_rows_of_no_kubun (shape t) (kubun_not_mem_shape t)

/-! ### Shaping statements never add rows (for the exception-handler claim) -/

theorem mono_stmtDropnaKubun (t : Table) :
    (stmtDropnaKubun t).rows.length ≤ t.rows.length := by
  by_cases h : "区分名" ∈ t.cols
  · rw [stmtDropnaKubun, if_pos h]; exact length_dropnaCol_le t _
  · rw [stmtDropnaKubun, if_neg h]

theorem mono_stmtFilterExclude (t : Table) :
    (stmtFilterExclude t).rows.length ≤ t.rows.length := by
  by_cases h : "区分名" ∈ t.cols
  · rw [stmtFilterExclude, if_pos h]; exact List.length_filter_le _ _
  · rw [stmtFilterExclude, if_neg h]

theorem mono_stmtDropnaYearMonthNum (t : Table) :
    (stmtDropnaYearMonthNum t).rows.length ≤ t.rows.length := by
  by_cases h : "区分名" ∈ t.cols ∧ "年" ∈ t.cols ∧ "月数値" ∈ t.cols
  · rw [stmtDropnaYearMonthNum, if_pos h]; exact List.length_filter_le _ _
  · rw [stmtDropnaYearMonthNum, if_neg h]

theorem mono_stmtDropnaYearMonth (t : Table) :
    (stmtDropnaYearMonth t).rows.length ≤ t.rows.length := by
  by_cases h : "区分名" ∈ t.cols ∧ "年" ∈ t.cols ∧ "月数値" ∈ t.cols
  · rw [stmtDropnaYearMonth, if_pos h]; exact length_dropnaCol_le t _
  · rw [stmtDropnaYearMonth, if_neg h]

theorem mono_stmtSetMonth (t : Table) : (stmtSetMonth t).rows.length ≤ t.rows.length := by
  by_cases h : "区分名" ∈ t.cols
  · rw [stmtSetMonth, if_pos h, length_setColT]
  · rw [stmtSetMonth, if_neg h]

theorem mono_stmtSetKubun (t : Table) : (stmtSetKubun t).rows.length ≤ t.rows.length := by
  by_cases h : "区分名" ∈ t.cols
  · rw [stmtSetKubun, if_pos h, length_setColT]
  · rw [stmtSetKubun, if_neg h]

theorem mono_stmtSetMonthNum (t : Table) : (stmtSetMonthNum t).rows.length ≤ t.rows.length := by
  by_cases h : "区分名" ∈ t.cols
  · rw [stmtSetMonthNum, if_pos h, length_setColT]
  · rw [stmtSetMonthNum, if_neg h]

theorem mono_stmtSetYearMonth (t : Table) :
    (stmtSetYearMonth t).rows.length ≤ t.rows.length := by
  by_cases h : "区分名" ∈ t.cols ∧ "年" ∈ t.cols ∧ "月数値" ∈ t.cols
  · rw [stmtSetYearMonth, if_pos h, length_setColT]
  · rw [stmtSetYearMonth, if_neg h]

theorem mono_stmtDropMonthNum (t : Table) :
    (stmtDropMonthNum t).rows.length ≤ t.rows.length := by
  by_cases h : "区分名" ∈ t.cols ∧ "年" ∈ t.cols ∧ "月数値" ∈ t.cols
  · rw [stmtDropMonthNum, if_pos h, length_dropColT]
  · rw [stmtDropMonthNum, if_neg h]

theorem mono_stmtDropKubunName (t : Table) :
    (stmtDropKubunName t).rows.length ≤ t.rows.length := by
  by_cases h : "区分名" ∈ t.cols
  · rw [stmtDropKubunName, if_pos h, length_dropColT]
  · rw [stmtDropKubunName, if_neg h]

theorem stmt_mem_mono (f : Table → Table) (hf : f ∈ shapeStmts) (u : Table) :
    (f u).rows.length ≤ u.rows.length := by
  simp only [shapeStmts, List.mem_cons, List.not_mem_nil, or_false] at hf
  rcases hf with rfl | rfl | rfl | rfl | rfl | rfl | rfl | rfl | rfl | rfl | rfl | rfl | rfl | rfl | rfl | rfl
  · exact mono_stmtDropnaKubun u
  · exact mono_stmtFilterExclude u
  · exact mono_stmtSetMonth u
  · exact mono_stmtSetKubun u
  · exact mono_stmtSetMonthNum u
  · exact mono_stmtDropnaYearMonthNum u
  · exact mono_stmtSetYearMonth u
  · exact mono_stmtDropnaYearMonth u
  · exact mono_stmtDropMonthNum u
  · exact mono_stmtDropKubunName u
  · exact le_of_eq (length_stmtDropYearCode u)
  · exact le_of_eq (length_stmtCoerceValue u)
  · exact le_of_eq (length_stmtStrHS u)
  · exact le_of_eq (length_stmtStrCountry u)
  · exact le_of_eq (length_stmtStrZeikan u)
  · exact le_of_eq (length_stmtSelectFinal u)

theorem foldl_rows_le (fs : List (Table → Table)) :
    (∀ f ∈ fs, ∀ u : Table, (f u).rows.length ≤ u.rows.length) →
    ∀ t : Table, ((fs.foldl (fun a f => f a) t).rows.length ≤ t.rows.length) := by
  induction fs with
  | nil => intro _ t; exact le_refl _
  | cons f fs ih =>
    intro h t
    calc (List.foldl (fun a g => g a) (f t) fs).rows.length
        ≤ (f t).rows.length := ih (fun g hg => h g (List.mem_cons_of_mem f hg)) (f t)
      _ ≤ t.rows.length := h f (List.mem_cons_self f fs) t

/-- C9 (amended): when a shaping statement raises after k statements have
completed, the run does not halt — the caller receives `df_complete` as of
that point: a table with at most the unshaped table's rows, and exactly the
unshaped table only in the degenerate case that no statement had completed. -/
theorem shaping_failure_keeps_partial_table (t : Table) (k : Nat) :
    runShaping t (some k) = shapeUpTo t k ∧
    (shapeUpTo t k).rows.length ≤ t.rows.length ∧
    shapeUpTo t 0 = t := by
  refine ⟨rfl, ?_, rfl⟩
  exact foldl_rows_le (shapeStmts.take k)
    (fun f hf => stmt_mem_mono f (List.take_subset k shapeStmts hf)) t

/-- A shaping input with one NA category label and one good row. -/
def tShapeCx : Table := ⟨["区分名"], [[("区分名", none)], [("区分名", some "01_輸出")]]⟩

/-- C9 counterexample: if an exception is raised once the first shaping
statement (the dropna on 区分名) has completed, the handler's table has
already lost a row — the caller does not receive the unshaped table. -/
theorem shaping_failure_counterexample :
    (runShaping tShapeCx (some 1)).rows.length = 1 ∧ tShapeCx.rows.length = 2 ∧
    runShaping tShapeCx (some 1) ≠ tShapeCx := by
  refine ⟨by decide, rfl, by decide⟩

/-- C3: after all identifiers are processed the run halts (the NoDataError
path of lines 163-165) exactly when the cumulative record list is empty —
the only post-loop fatal condition, every later stage being total — and in
particular whenever every outcome is non-Success. -/
theorem no_data_halt (fs : List Fetched) (hsT : Table) :
    (fullRun fs hsT = none ↔ (runLoop fs).dataList = []) ∧
    ((∀ f ∈ fs, classify f ≠ Outcome.success) → fullRun fs hsT = none) := by
  constructor
  · rw [fullRun, pipelinePost]
    by_cases h : (runLoop fs).dataList = []
    · simp [h]
    · simp [h]
  · intro h
    have he : (runLoop fs).dataList = [] := loopFrom_dataList_nonsuccess fs initState h
    rw [fullRun, pipelinePost]
    simp [he]

theorem no_data_halt_witness :
    (∀ f ∈ [Fetched.transportError], classify f ≠ Outcome.success) ∧
    fullRun [Fetched.transportError] emptyTable = none :=
  ⟨by decide, (no_data_halt [Fetched.transportError] emptyTable).2 (by decide)⟩

/-! ### Country-name cleaning (C7) -/

theorem afterUnderscore_append (pre suf : List Char) (h : '_' ∉ pre) :
    afterUnderscore (pre ++ '_' :: suf) = some suf := by
  induction pre with
  | nil => simp [afterUnderscore]
  | cons c cs ih =>
    have hc : ¬ (c = '_') := fun hc => h (hc ▸ List.mem_cons_self c cs)
    have hcs : '_' ∉ cs := fun hm => h (List.mem_cons_of_mem c hm)
    simp only [List.cons_append, afterUnderscore, if_neg hc]
    exact ih hcs

/-- C7: for every class entry of the area lookup whose name has the form
`prefix_rest` (no underscore in the prefix), the Metadata Resolver's country
table carries the display name `rest` — the source name stripped of
everything up to and including its first underscore. -/
theorem country_name_strip (objs : List ClassObj) (es : List ClassEntry) (e : ClassEntry)
    (pre suf : List Char)
    (hfind : (objs.find? (fun o => o.id == "area")).bind (fun o => o.classes) = some es)
    (he : e ∈ es) (hname : e.name.data = pre ++ '_' :: suf) (hpre : '_' ∉ pre) :
    [("国コード", some e.code), ("国名", some (String.mk suf))] ∈ (countryTableOf objs).rows := by
  have hclean : countryClean e.name = some (String.mk suf) := by
    rw [countryClean, hname, afterUnderscore_append pre suf hpre]
    rfl
  rw [countryTableOf, hfind]
  simp only
  refine List.mem_map.mpr ⟨e, he, ?_⟩
  rw [hclean]

def areaObjW : ClassObj := ⟨"area", some [⟨"103", "103_アメリカ合衆国", none⟩]⟩

theorem country_name_strip_witness :
    [("国コード", some "103"), ("国名", some (String.mk "アメリカ合衆国".data))]
      ∈ (countryTableOf [areaObjW]).rows :=
  country_name_strip [areaObjW] [⟨"103", "103_アメリカ合衆国", none⟩]
    ⟨"103", "103_アメリカ合衆国", none⟩ "103".data "アメリカ合衆国".data
    rfl (List.mem_cons_self _ _) rfl (by decide)

/-! ### Left-join row-count preservation (C5) -/

theorem length_le_one_of_nodup_const {β : Type} (l : List β) (b : β)
    (hnd : l.Nodup) (h : ∀ x ∈ l, x = b) : l.length ≤ 1 := by
  match l with
  | [] => simp
  | [x] => simp
  | x :: y :: rest =>
    exfalso
    have hx : x = b := h x (List.mem_cons_self _ _)
    have hy : y = b := h y (List.mem_cons_of_mem x (List.mem_cons_self _ _))
    rw [List.nodup_cons] at hnd
    exact hnd.1 (by rw [hx, ← hy]; exact List.mem_cons_self _ _)

theorem matchKey_some (v : String) (d : Cell) (h : matchKey (some v) d = true) :
    d = some v := by
  cases d with
  | none => simp [matchKey] at h
  | some y =>
    simp only [matchKey] at h
    rw [eq_of_beq h]

theorem matches_le_one (u : List Row) (key : String) (c : Cell)
    (hnd : (u.map (fun q => getCell q key)).Nodup) :
    (u.filter (fun q => matchKey c (getCell q key))).length ≤ 1 := by
  cases c with
  | none =>
    have hnil : u.filter (fun q => matchKey none (getCell q key)) = [] := by
      apply List.filter_eq_nil_iff.mpr
      intro q _
      cases hq : getCell q key <;> simp [matchKey]
    rw [hnil]
    simp
  | some v =>
    have hsub : List.Sublist
        ((u.filter (fun q => matchKey (some v) (getCell q key))).map (fun q => getCell q key))
        (u.map (fun q => getCell q key)) :=
      (List.filter_sublist u).map _
    have hnd2 := hnd.sublist hsub
    have hconst : ∀ d ∈ (u.filter (fun q => matchKey (some v) (getCell q key))).map
        (fun q => getCell q key), d = some v := by
      intro d hd
      rcases List.mem_map.mp hd with ⟨q, hq, rfl⟩
      exact matchKey_some v _ ((List.mem_filter.mp hq).2)
    have := length_le_one_of_nodup_const _ (some v) hnd2 hconst
    rwa [List.length_map] at this

theorem length_flatMap_of_const_one {β γ : Type} (l : List β) (g : β → List γ)
    (h : ∀ x ∈ l, (g x).length = 1) : (l.flatMap g).length = l.length := by
  induction l with
  | nil => rfl
  | cons a l ih =>
    rw [List.flatMap_cons, List.length_append, h a (List.mem_cons_self _ _),
      ih (fun x hx => h x (List.mem_cons_of_mem a hx)), List.length_cons]
    omega

/-- A left join against a right table with pairwise-distinct key cells
neither drops nor duplicates left rows. -/
theorem leftJoin_length (t u : Table) (key : String)
    (hnd : (u.rows.map (fun q => getCell q key)).Nodup) :
    (leftJoin t u key).rows.length = t.rows.length := by
  rw [leftJoin]
  apply length_flatMap_of_const_one
  intro r _
  simp only
  by_cases hms : (u.rows.filter (fun q => matchKey (getCell r key) (getCell q key))).isEmpty
  · rw [if_pos hms]
    rfl
  · rw [if_neg hms, List.length_map]
    have hle := matches_le_one u.rows key (getCell r key) hnd
    have hne : (u.rows.filter (fun q => matchKey (getCell r key) (getCell q key))) ≠ [] := by
      intro hq
      rw [hq] at hms
      exact hms rfl
    have hpos := List.length_pos.mpr hne
    omega

theorem nubByAux_key_not_seen (f : Row → Cell) :
    ∀ (l : List Row) (seen : List Cell) (x : Row), x ∈ nubByAux f seen l → f x ∉ seen := by
  intro l
  induction l with
  | nil => intro seen x hx; simp [nubByAux] at hx
  | cons a l ih =>
    intro seen x hx
    by_cases ha : f a ∈ seen
    · rw [nubByAux, if_pos ha] at hx
      exact ih seen x hx
    · rw [nubByAux, if_neg ha] at hx
      rcases List.mem_cons.mp hx with rfl | hx2
      · exact ha
      · intro hs
        exact ih (f a :: seen) x hx2 (List.mem_cons_of_mem _ hs)

theorem nodup_map_nubByAux (f : Row → Cell) :
    ∀ (l : List Row) (seen : List Cell), ((nubByAux f seen l).map f).Nodup := by
  intro l
  induction l with
  | nil => intro seen; simp [nubByAux]
  | cons a l ih =>
    intro seen
    by_cases ha : f a ∈ seen
    · rw [nubByAux, if_pos ha]
      exact ih seen
    · rw [nubByAux, if_neg ha, List.map_cons, List.nodup_cons]
      refine ⟨?_, ih (f a :: seen)⟩
      intro hmem
      rcases List.mem_map.mp hmem with ⟨x, hx, hfx⟩
      exact nubByAux_key_not_seen f l (f a :: seen) x hx (hfx ▸ List.mem_cons_self _ _)

theorem nodup_keys_dropDupOn (t : Table) (key : String) :
    ((dropDupOn t key).rows.map (fun q => getCell q key)).Nodup :=
  nodup_map_nubByAux _ t.rows []

/-- C5: with deduplicated lookup keys, the row count entering the Metadata
Resolver's join step equals the row count leaving it — the three
classification left joins and the item-label left join (label map
deduplicated on the HS code first) neither drop nor duplicate rows. -/
theorem merge_preserves_rowcount (df c02 zk ct hsT : Table)
    (h1 : (c02.rows.map (fun q => getCell q "区分コード")).Nodup)
    (h2 : (zk.rows.map (fun q => getCell q "税関コード")).Nodup)
    (h3 : (ct.rows.map (fun q => getCell q "国コード")).Nodup) :
    (mergeChain df c02 zk ct hsT).rows.length = df.rows.length := by
  have h4 := nodup_keys_dropDupOn (astypeStrTable (selectColsExact hsT ["HSコード", "品目"])) "HSコード"
  simp only [mergeChain]
  rw [leftJoin_length _ _ _ h4, length_mapColT, length_setColT,
    leftJoin_length _ _ _ h3, leftJoin_length _ _ _ h2, leftJoin_length _ _ _ h1]

def dfW : Table :=
  ⟨["HSコード", "区分コード", "税関コード", "国コード", "年コード"],
   [[("HSコード", some "0101"), ("区分コード", some "01")]]⟩

def c02W : Table :=
  ⟨["区分コード", "区分名", "親コード"], [[("区分コード", some "01"), ("区分名", some "01_輸出")]]⟩

def zkW : Table := ⟨["税関コード", "税関"], []⟩

def ctW : Table := ⟨["国コード", "国名"], []⟩

def hsW : Table := ⟨["HSコード", "品目"], [[("HSコード", some "0101"), ("品目", some "馬")]]⟩

theorem merge_preserves_rowcount_witness :
    (c02W.rows.map (fun q => getCell q "区分コード")).Nodup ∧
    (zkW.rows.map (fun q => getCell q "税関コード")).Nodup ∧
    (ctW.rows.map (fun q => getCell q "国コード")).Nodup ∧
    (mergeChain dfW c02W zkW ctW hsW).rows.length = dfW.rows.length :=
  ⟨by decide, by decide, by decide,
   merge_preserves_rowcount dfW c02W zkW ctW hsW (by decide) (by decide) (by decide)⟩

/-! ### Column tracking for the metadata-absent path (C6) -/

theorem cols_setColT_mem (t : Table) (c : String) (f : Row → Cell) (h : c ∈ t.cols) :
    (setColT t c f).cols = t.cols := by
  simp [setColT, h]

theorem cols_stmtCoerceValue (t : Table) : (stmtCoerceValue t).cols = t.cols := by
  by_cases h : "値（金額、数量）" ∈ t.cols
  · rw [stmtCoerceValue, if_pos h, mapColT, cols_setColT_mem t _ _ h]
  · rw [stmtCoerceValue, if_neg h]

theorem cols_stmtStrHS (t : Table) : (stmtStrHS t).cols = t.cols := by
  by_cases h : "HSコード" ∈ t.cols
  · rw [stmtStrHS, if_pos h, mapColT, cols_setColT_mem t _ _ h]
  · rw [stmtStrHS, if_neg h]

theorem cols_stmtStrCountry (t : Table) : (stmtStrCountry t).cols = t.cols := by
  by_cases h : "国コード" ∈ t.cols
  · rw [stmtStrCountry, if_pos h, mapColT, cols_setColT_mem t _ _ h]
  · rw [stmtStrCountry, if_neg h]

theorem cols_stmtStrZeikan (t : Table) : (stmtStrZeikan t).cols = t.cols := by
  by_cases h : "税関コード" ∈ t.cols
  · rw [stmtStrZeikan, if_pos h, mapColT, cols_setColT_mem t _ _ h]
  · rw [stmtStrZeikan, if_neg h]

theorem cols_stmtDropYearCode_subset (t : Table) : (stmtDropYearCode t).cols ⊆ t.cols := by
  intro c hc
  exact (List.mem_filter.mp hc).1

theorem cols_stmtSelectFinal_subset (t : Table) : (stmtSelectFinal t).cols ⊆ t.cols := by
  intro c hc
  have h2 := (List.mem_filter.mp hc).2
  exact of_decide_eq_true h2

/-- Without a 区分名 column the shaping block introduces no new column. -/
theorem shape_cols_subset_of_no_kubun (t : Table) (h : "区分名" ∉ t.cols) :
    (shape t).cols ⊆ t.cols := by
  rw [shape_unfold, stmtDropnaKubun_id t h, stmtFilterExclude_id t h, stmtSetMonth_id t h,
    stmtSetKubun_id t h, stmtSetMonthNum_id t h, stmtDropnaYearMonthNum_id t h,
    stmtSetYearMonth_id t h, stmtDropnaYearMonth_id t h, stmtDropMonthNum_id t h,
    stmtDropKubunName_id t h]
  intro c hc
  have h1 := cols_stmtSelectFinal_subset _ hc
  rw [cols_stmtStrZeikan, cols_stmtStrCountry, cols_stmtStrHS, cols_stmtCoerceValue] at h1
  exact cols_stmtDropYearCode_subset t h1

theorem mem_colsOfRows (rows : List Row) (c : String) :
    c ∈ colsOfRows rows ↔ ∃ r ∈ rows, ∃ p ∈ r, p.1 = c := by
  rw [colsOfRows, mem_nub, List.mem_flatMap]
  constructor
  · rintro ⟨r, hr, hc⟩
    rcases List.mem_map.mp hc with ⟨p, hp, hpc⟩
    exact ⟨r, hr, p, hp, hpc⟩
  · rintro ⟨r, hr, p, hp, hpc⟩
    exact ⟨r, hr, List.mem_map.mpr ⟨p, hp, hpc⟩⟩

/-- Short field codes a getStatsData VALUE row may carry. -/
def apiValueKeys : List String :=
  ["@tab", "@cat01", "@cat02", "@cat03", "@area", "@time", "@unit", "$"]

theorem renameTable_cols_mem (dataList : List Row) (c : String)
    (hkeys : ∀ r ∈ dataList, ∀ p ∈ r, p.1 ∈ apiValueKeys)
    (hc : c ∈ (renameTable dataList).cols) : ∃ k ∈ apiValueKeys, c = renameMap k := by
  rw [renameTable] at hc
  rcases List.mem_map.mp hc with ⟨k, hk, hkc⟩
  rcases (mem_colsOfRows dataList k).mp hk with ⟨r, hr, p, hp, hpk⟩
  exact ⟨k, hpk ▸ hkeys r hr p hp, hkc.symm⟩

theorem length_renameTable (dataList : List Row) :
    (renameTable dataList).rows.length = dataList.length := by
  simp [renameTable]

/-- C6 (amended): with the retained envelope absent or lacking its metadata
section, the pipeline raises nothing and halts nowhere: the output table
keeps every accumulated row, and the country/office/item-label enrichment
columns are omitted from it (the final column selection keeps only existing
columns) rather than present-and-empty. -/
theorem metadata_absent_degrades (dataList : List Row) (retained : Option RespBody) (hsT : Table)
    (hne : dataList ≠ [])
    (hkeys : ∀ r ∈ dataList, ∀ p ∈ r, p.1 ∈ apiValueKeys)
    (hmeta : classObjsOf retained = none) :
    pipelinePost dataList retained hsT = some (shape (renameTable dataList)) ∧
    (shape (renameTable dataList)).rows.length = dataList.length ∧
    "国名" ∉ (shape (renameTable dataList)).cols ∧
    "税関" ∉ (shape (renameTable dataList)).cols ∧
    "品目" ∉ (shape (renameTable dataList)).cols := by
  have hkub : "区分名" ∉ (renameTable dataList).cols := by
    intro h
    rcases renameTable_cols_mem dataList _ hkeys h with ⟨k, hk, hek⟩
    have hall : ∀ k ∈ apiValueKeys, ¬ ("区分名" = renameMap k) := by decide
    exact hall k hk hek
  have hsub := shape_cols_subset_of_no_kubun _ hkub
  refine ⟨?_, ?_, ?_, ?_, ?_⟩
  · rw [pipelinePost, if_neg hne, hmeta]
  · rw [shape_rows_of_no_kubun _ hkub, length_renameTable]
  · intro h
    rcases renameTable_cols_mem dataList _ hkeys (hsub h) with ⟨k, hk, hek⟩
    have hall : ∀ k ∈ apiValueKeys, ¬ ("国名" = renameMap k) := by decide
    exact hall k hk hek
  · intro h
    rcases renameTable_cols_mem dataList _ hkeys (hsub h) with ⟨k, hk, hek⟩
    have hall : ∀ k ∈ apiValueKeys, ¬ ("税関" = renameMap k) := by decide
    exact hall k hk hek
  · intro h
    rcases renameTable_cols_mem dataList _ hkeys (hsub h) with ⟨k, hk, hek⟩
    have hall : ∀ k ∈ apiValueKeys, ¬ ("品目" = renameMap k) := by decide
    exact hall k hk hek

def dlW : List Row := [[("@cat01", some "0101"), ("@time", some "2023000000")]]

theorem metadata_absent_degrades_witness :
    pipelinePost dlW none emptyTable = some (shape (renameTable dlW)) ∧
    (shape (renameTable dlW)).rows.length = dlW.length ∧
    "国名" ∉ (shape (renameTable dlW)).cols ∧
    "税関" ∉ (shape (renameTable dlW)).cols ∧
    "品目" ∉ (shape (renameTable dlW)).cols :=
  metadata_absent_degrades dlW none emptyTable (by decide) (by decide) rfl

/-- C6 counterexample: metadata absent on a one-row record list — the run
yields a table with the row kept, but the 国名 and 税関 enrichment columns
are not present (empty or otherwise) in it, contrary to the claim. -/
theorem metadata_absent_counterexample :
    (pipelinePost dlW none emptyTable).isSome = true ∧
    "国名" ∉ ((pipelinePost dlW none emptyTable).getD emptyTable).cols ∧
    "税関" ∉ ((pipelinePost dlW none emptyTable).getD emptyTable).cols ∧
    ((pipelinePost dlW none emptyTable).getD emptyTable).rows.length = 1 := by
  decide

end TsuukanTokei
